import Mathlib

/-!
Shallow embedding of `src/farfs.c` (FARFS: a read-only FUSE filesystem over
a flat archive image), together with proofs about its decoding, path
resolution, attribute building, directory enumeration and file reading.

Modelling conventions:
* the mmapped archive image (`far_mapping`) is a `List Nat` of bytes;
* 32-bit little-endian fields are decoded with `le32` (the host is modelled
  as little-endian, so `le32_to_cpu` is the identity on stored values);
* an entry is identified by a reference: the synthetic `dummy_root`, or a
  byte offset into the image (entries are 16-byte records);
* `abort()` inside `far_children` is modelled by an `aborted` outcome;
* C functions returning `0` / `-errno` are modelled with `FarResult`; the
  `err` constructor carries the positive errno value;
* the FUSE filler callback is a parameter `σ → name → stat → nextoff →
  σ × Bool`, where `true` means "buffer full" (the entry was not consumed).
-/

namespace FARFS

/-- One byte of the archive image (reads outside the image give 0; claims
that depend on image content carry in-bounds hypotheses). -/
def byteAt (img : List Nat) (i : Nat) : Nat := img.getD i 0

/-- Decode a 32-bit little-endian unsigned integer at byte offset `off`. -/
def le32 (img : List Nat) (off : Nat) : Nat :=
  byteAt img off + 256 * byteAt img (off + 1) +
    65536 * byteAt img (off + 2) + 16777216 * byteAt img (off + 3)

/-- The FAR magic value, `MAGIC('F','A','R','\0')`. -/
def FAR_MAGIC : Nat := 70 ||| (65 <<< 8) ||| (82 <<< 16) ||| (0 <<< 24)

/-- The process-wide globals of `farfs.c`: the mmapped image `far_mapping`,
the archive-wide timestamps `far_atime`/`far_mtime`/`far_ctime`, and the
serving process identity (`getuid()`/`getgid()`). -/
structure FarGlobals where
  far_mapping : List Nat
  far_atime : Nat
  far_mtime : Nat
  far_ctime : Nat
  uid : Nat
  gid : Nat
deriving DecidableEq

/-- A decoded `FARentry_t`: flags (low byte is the type), name offset,
data offset, and size (bytes for a file, child count for a directory). -/
structure FARentry where
  flags : Nat
  nameoff : Nat
  dataoff : Nat
  size : Nat
deriving DecidableEq

/-- Reference to an entry: the static `dummy_root`, or a 16-byte record
located at a byte offset inside the image. -/
inductive EntryRef where
  | root
  | loc (off : Nat)
deriving DecidableEq

/-- `offsetof(FARheader_t, rootdir)`: the header is five u32 fields. -/
def rootdirOffset : Nat := 20

/-- Decode the entry a reference denotes.  `dummy_root` has
`flags = FAR_DIR_TYPE = 1`, `nameoff = 0`,
`dataoff = offsetof(FARheader_t, rootdir)`, and its `size` is set from
`header->rootentries` at startup (`root->size = header->rootentries`). -/
def entryOf (g : FarGlobals) : EntryRef → FARentry
  | .root => ⟨1, 0, rootdirOffset, le32 g.far_mapping 16⟩
  | .loc off =>
      ⟨le32 g.far_mapping off, le32 g.far_mapping (off + 4),
       le32 g.far_mapping (off + 8), le32 g.far_mapping (off + 12)⟩

/-- `far_type`: the low byte of the flags field (0 = file, 1 = directory). -/
def far_type (g : FarGlobals) (e : EntryRef) : Nat :=
  (entryOf g e).flags % 256

/-- `far_name`: the NUL-terminated string at `nameoff`, as a byte list. -/
def far_name (g : FarGlobals) (e : EntryRef) : List Nat :=
  (g.far_mapping.drop (entryOf g e).nameoff).takeWhile (fun b => b != 0)

/-- `far_datasize`: the decoded size field. -/
def far_datasize (g : FarGlobals) (e : EntryRef) : Nat :=
  (entryOf g e).size

/-- The decoded data offset (`far_data` is `far_mapping + dataoff`). -/
def far_dataoff (g : FarGlobals) (e : EntryRef) : Nat :=
  (entryOf g e).dataoff

/-- `far_children`: aborts (`none`) unless the entry is a directory;
otherwise the child array starts at the entry's data offset. -/
def far_children (g : FarGlobals) (e : EntryRef) : Option Nat :=
  if far_type g e = 1 then some (far_dataoff g e) else none

/-- The `i`-th child record of a directory entry (16-byte records laid out
contiguously at the entry's data offset). -/
def farChild (g : FarGlobals) (e : EntryRef) (i : Nat) : EntryRef :=
  .loc (far_dataoff g e + 16 * i)

/-- An open directory handle (`far_dir_t`): the captured parent and entry. -/
structure FarDir where
  parent : EntryRef
  entry : EntryRef
deriving DecidableEq

/-- The fields of `struct stat` that `far_fill_stat` writes. -/
structure FarStat where
  st_dev : Nat
  st_ino : Nat
  st_nlink : Nat
  st_uid : Nat
  st_gid : Nat
  st_rdev : Nat
  st_size : Nat
  st_blksize : Nat
  st_blocks : Nat
  st_atime : Nat
  st_mtime : Nat
  st_ctime : Nat
  st_mode : Nat
deriving DecidableEq

/-- `far_fill_stat`: build a `stat` from an entry.  The inode is 1 for the
dummy root and `(entry - header->rootdir) + 2` (pointer difference in
16-byte records) otherwise; the link count of a directory starts at 2 and
counts its directory children; a directory's size is its child count times
`sizeof(FARentry_t)`. -/
def far_fill_stat (g : FarGlobals) (e : EntryRef) : FarStat :=
  let ino : Nat :=
    match e with
    | .root => 1
    | .loc off => (off - rootdirOffset) / 16 + 2
  let nlink : Nat :=
    if far_type g e = 1 then
      (List.range (far_datasize g e)).foldl
        (fun n i => if far_type g (farChild g e i) == 1 then n + 1 else n) 2
    else 1
  let sz : Nat :=
    if far_type g e = 1 then far_datasize g e * 16 else far_datasize g e
  { st_dev := 0
    st_ino := ino
    st_nlink := nlink
    st_uid := g.uid
    st_gid := g.gid
    st_rdev := 0
    st_size := sz
    st_blksize := 4096
    st_blocks := (sz + 4096 - 1) / 512
    st_atime := g.far_atime
    st_mtime := g.far_mtime
    st_ctime := g.far_ctime
    st_mode := if far_type g e = 1 then 0o40555 else 0o100444 }

/-- Outcome of `far_traverse_path`: `abort()` reached, `NULL` returned, or
an entry found together with the value left in `*parent`. -/
inductive Trav where
  | aborted
  | notFound
  | found (entry parent : EntryRef)
deriving DecidableEq

/-- One linear scan of a directory's children for a component name, as both
loops of `far_traverse_path` perform it: if the child count is zero the
loop body never runs (no match, no abort); otherwise the first iteration's
`far_children` call aborts (`none`) on a non-directory; otherwise the first
child whose name matches is returned (`some (some e)`), or `some none` when
none matches. -/
def far_scan (g : FarGlobals) (dir : EntryRef) (c : List Nat) :
    Option (Option EntryRef) :=
  let n := far_datasize g dir
  if n = 0 then some none
  else
    match far_children g dir with
    | none => none
    | some base =>
        some (((List.range n).find?
            (fun i => far_name g (.loc (base + 16 * i)) == c)).map
          (fun i => EntryRef.loc (base + 16 * i)))

/-- One intermediate-component step of `far_traverse_path`: on a match the
walk descends (`*parent` becomes the previous directory); on no match the
current directory and parent are left unchanged and the walk continues. -/
def interStep (g : FarGlobals) (dp : EntryRef × EntryRef) (c : List Nat) :
    Option (EntryRef × EntryRef) :=
  match far_scan g dp.1 c with
  | none => none
  | some none => some dp
  | some (some e) => some (e, dp.1)

/-- `far_traverse_path`: `"/"` resolves to the dummy root with itself as
parent; otherwise the leading `/` is skipped, the rest is split on `/`,
every component but the last is an intermediate step, and the final
component is looked up in the directory the walk ends at. -/
def far_traverse_path (g : FarGlobals) (path : List Nat) : Trav :=
  if path = [47] then .found .root .root
  else
    let comps := (path.drop 1).splitOn 47
    match List.foldlM (interStep g) (EntryRef.root, EntryRef.root)
        comps.dropLast with
    | none => .aborted
    | some (dir, par) =>
        match far_scan g dir (comps.getLastD []) with
        | none => .aborted
        | some none => .notFound
        | some (some e) => .found e par

/-- Result of a FUSE operation: the process aborted, a `-errno` return
(carrying the positive errno), or success with a payload. -/
inductive FarResult (α : Type) where
  | aborted
  | err (errno : Nat)
  | ok (a : α)
deriving DecidableEq

def ENOENT : Nat := 2
def ENOMEM : Nat := 12
def EACCES : Nat := 13
def ENOTDIR : Nat := 20
def EINVAL : Nat := 22
def EROFS : Nat := 30

/-- `O_CREAT` (Linux, octal 0100). -/
def O_CREAT : Nat := 64

/-- `far_getattr`: resolve the path and fill a stat buffer. -/
def far_getattr (g : FarGlobals) (path : List Nat) : FarResult FarStat :=
  match far_traverse_path g path with
  | .aborted => .aborted
  | .notFound => .err ENOENT
  | .found e _ => .ok (far_fill_stat g e)

/-- `far_open`: resolve the path; on failure return `EROFS` when `O_CREAT`
was requested and `ENOENT` otherwise; reject `O_RDWR` and `O_WRONLY`
access modes with `EACCES`; otherwise store the entry in the handle. -/
def far_open (g : FarGlobals) (path : List Nat) (flags : Nat) :
    FarResult EntryRef :=
  match far_traverse_path g path with
  | .aborted => .aborted
  | .notFound =>
      if flags &&& O_CREAT != 0 then .err EROFS else .err ENOENT
  | .found e _ =>
      if flags &&& 3 = 2 then .err EACCES
      else if flags &&& 3 = 1 then .err EACCES
      else .ok e

/-- `far_read`: negative offsets are `EINVAL`; offsets at or past the size
read 0 bytes; otherwise the requested length is clamped to the remaining
bytes and that many bytes are copied from `far_data(entry) + offset`.
The result carries the returned byte count and the copied bytes. -/
def far_read (g : FarGlobals) (e : EntryRef) (offset : Int) (size : Nat) :
    FarResult (Nat × List Nat) :=
  if offset < 0 then .err EINVAL
  else if (far_datasize g e : Int) ≤ offset then .ok (0, [])
  else
    let off := offset.toNat
    let sz := if far_datasize g e < off + size then far_datasize g e - off
              else size
    .ok (sz, (g.far_mapping.drop (far_dataoff g e + off)).take sz)

/-- `far_opendir`: resolve the path, fail with `ENOENT` on no entry and
`ENOTDIR` on a non-directory, then allocate a handle capturing parent and
entry (`allocOk` models whether `malloc` succeeds). -/
def far_opendir (g : FarGlobals) (path : List Nat) (allocOk : Bool) :
    FarResult FarDir :=
  match far_traverse_path g path with
  | .aborted => .aborted
  | .notFound => .err ENOENT
  | .found e par =>
      if far_type g e != 1 then .err ENOTDIR
      else if allocOk then .ok ⟨par, e⟩ else .err ENOMEM

/-- `far_releasedir`: frees the handle and returns 0. -/
def far_releasedir (g : FarGlobals) (d : FarDir) : FarResult Unit :=
  .ok ()

/-- The child-enumeration loop of `far_readdir`
(`for(off = 2; off-2 < far_datasize(dir->entry); ++off)`), with the
remaining iteration count `n` made explicit.  An iteration whose loop
counter `off` differs from the resumption cursor `offset` does nothing;
when they agree, `far_children` is consulted (abort on a non-directory),
the child at index `off - 2` is passed to the filler with next cursor
`offset + 1`, and a `true` ("buffer full") answer stops the loop. -/
def rdLoop {σ : Type} (g : FarGlobals) (e : EntryRef)
    (filler : σ → List Nat → FarStat → Int → σ × Bool) :
    Nat → Int → Int → σ → FarResult σ
  | 0, _, _, s => .ok s
  | n + 1, off, offset, s =>
    if off = offset then
      match far_children g e with
      | none => .aborted
      | some base =>
          let child := EntryRef.loc (base + 16 * (off - 2).toNat)
          match filler s (far_name g child) (far_fill_stat g child)
              (offset + 1) with
          | (s', true) => .ok s'
          | (s', false) => rdLoop g e filler n (off + 1) (offset + 1) s'
    else rdLoop g e filler n (off + 1) offset s

/-- The tail of `far_readdir` after the `.` and `..` checks: the child
loop starting at loop counter 2. -/
def far_readdir_tail {σ : Type} (g : FarGlobals) (d : FarDir)
    (filler : σ → List Nat → FarStat → Int → σ × Bool)
    (offset : Int) (s : σ) : FarResult σ :=
  rdLoop g d.entry filler (far_datasize g d.entry) 2 offset s

/-- The part of `far_readdir` from the `..` check on: cursor 1 emits `..`
with the captured parent's attributes and next cursor 2. -/
def far_readdir_dots (g : FarGlobals) (d : FarDir)
    {σ : Type} (filler : σ → List Nat → FarStat → Int → σ × Bool)
    (offset : Int) (s : σ) : FarResult σ :=
  if offset = 1 then
    match filler s [46, 46] (far_fill_stat g d.parent) 2 with
    | (s', true) => .ok s'
    | (s', false) => far_readdir_tail g d filler 2 s'
  else far_readdir_tail g d filler offset s

/-- `far_readdir`: cursor 0 emits `.` with the open entry's attributes and
next cursor 1, then the `..` check and the child loop run in sequence. -/
def far_readdir (g : FarGlobals) (d : FarDir) (offset : Int)
    {σ : Type} (filler : σ → List Nat → FarStat → Int → σ × Bool)
    (s : σ) : FarResult σ :=
  if offset = 0 then
    match filler s [46] (far_fill_stat g d.entry) 1 with
    | (s', true) => .ok s'
    | (s', false) => far_readdir_dots g d filler 1 s'
  else far_readdir_dots g d filler offset s

/-- An instrumented filler: the state is a remaining budget and the names
accepted so far; with budget 0 it signals "buffer full" without consuming
the entry, otherwise it consumes the entry and decrements the budget. -/
def budgetFiller : Nat × List (List Nat) → List Nat → FarStat → Int →
    (Nat × List (List Nat)) × Bool
  | (0, l), _, _, _ => ((0, l), true)
  | (b + 1, l), nm, _, _ => ((b, l ++ [nm]), false)

/-- The names of a directory entry's children, in stored table order. -/
def childNames (g : FarGlobals) (e : EntryRef) : List (List Nat) :=
  (List.range (far_datasize g e)).map (fun i => far_name g (farChild g e i))

/-- The full listing an open directory handle should produce:
`.`, `..`, then the child names in stored order. -/
def fullListing (g : FarGlobals) (d : FarDir) : List (List Nat) :=
  [46] :: [46, 46] :: childNames g d.entry

/-- Run a sequence of `far_readdir` calls following the resumption
protocol: each call starts at the cursor where the previous one stopped
(start cursor plus the number of entries its filler consumed), with
per-call filler capacities `caps`.  Returns the concatenated emissions,
or `none` if some call aborted. -/
def runCalls (g : FarGlobals) (d : FarDir) :
    List Nat → Int → Option (List (List Nat))
  | [], _ => some []
  | cap :: rest, c =>
    match far_readdir g d c budgetFiller (cap, []) with
    | .ok (_, emitted) =>
        match runCalls g d rest (c + emitted.length) with
        | some more => some (emitted ++ more)
        | none => none
    | _ => none

/-! State-passing forms of the six operations served to the dispatch
layer.  The C functions read the globals (`far_mapping`, the header, the
timestamps) and never store to them, so each returns the globals it was
handed together with its result. -/

/-- `get_attributes` threading the globals. -/
def far_getattr_st (g : FarGlobals) (path : List Nat) :
    FarGlobals × FarResult FarStat :=
  (g, far_getattr g path)

/-- `open_file` threading the globals. -/
def far_open_st (g : FarGlobals) (path : List Nat) (flags : Nat) :
    FarGlobals × FarResult EntryRef :=
  (g, far_open g path flags)

/-- `read_file` threading the globals. -/
def far_read_st (g : FarGlobals) (e : EntryRef) (offset : Int)
    (size : Nat) : FarGlobals × FarResult (Nat × List Nat) :=
  (g, far_read g e offset size)

/-- `open_directory` threading the globals. -/
def far_opendir_st (g : FarGlobals) (path : List Nat) (allocOk : Bool) :
    FarGlobals × FarResult FarDir :=
  (g, far_opendir g path allocOk)

/-- `list_directory` threading the globals. -/
def far_readdir_st (g : FarGlobals) (d : FarDir) (offset : Int)
    {σ : Type} (filler : σ → List Nat → FarStat → Int → σ × Bool)
    (s : σ) : FarGlobals × FarResult σ :=
  (g, far_readdir g d offset filler s)

/-- `close_directory` threading the globals. -/
def far_releasedir_st (g : FarGlobals) (d : FarDir) :
    FarGlobals × FarResult Unit :=
  (g, far_releasedir g d)

/-! A concrete well-formed test archive.

Layout (127 bytes):
* header: magic "FAR\0", version 0, 5 entries total, reserved 0,
  2 root entries;
* offset 20: entry `hello.txt`, a file of 4 bytes at offset 123;
* offset 36: entry `sub`, a directory of 3 children at offset 52;
* offsets 52/68/84: `sub`'s children `d1` (directory), `f1` (file),
  `d2` (directory), all empty;
* offset 100: the name strings; offset 123: the payload "abcd". -/

def testImg : List Nat :=
  [70, 65, 82, 0,  0, 0, 0, 0,  5, 0, 0, 0,  0, 0, 0, 0,  2, 0, 0, 0,
   0, 0, 0, 0,  100, 0, 0, 0,  123, 0, 0, 0,  4, 0, 0, 0,
   1, 0, 0, 0,  110, 0, 0, 0,  52, 0, 0, 0,  3, 0, 0, 0,
   1, 0, 0, 0,  114, 0, 0, 0,  100, 0, 0, 0,  0, 0, 0, 0,
   0, 0, 0, 0,  117, 0, 0, 0,  100, 0, 0, 0,  0, 0, 0, 0,
   1, 0, 0, 0,  120, 0, 0, 0,  100, 0, 0, 0,  0, 0, 0, 0,
   104, 101, 108, 108, 111, 46, 116, 120, 116, 0,
   115, 117, 98, 0,
   100, 49, 0,
   102, 49, 0,
   100, 50, 0,
   97, 98, 99, 100]

/-- Globals loaded with the test archive. -/
def testG : FarGlobals :=
  { far_mapping := testImg, far_atime := 11, far_mtime := 12,
    far_ctime := 13, uid := 1000, gid := 1000 }

/-- The handle `far_opendir` builds for `"/"`. -/
def rootHandle : FarDir := ⟨.root, .root⟩

/-- `"/hello.txt"` as bytes. -/
def pHello : List Nat := [47, 104, 101, 108, 108, 111, 46, 116, 120, 116]

/-- `"/sub"` as bytes. -/
def pSub : List Nat := [47, 115, 117, 98]

/-- `"/nope/hello.txt"` as bytes: the intermediate component `nope`
matches no child of the root. -/
def pNope : List Nat :=
  [47, 110, 111, 112, 101, 47, 104, 101, 108, 108, 111, 46, 116, 120, 116]

/-- `"/hello.txt/x"` as bytes: the intermediate component names a file. -/
def pAbort : List Nat :=
  [47, 104, 101, 108, 108, 111, 46, 116, 120, 116, 47, 120]

/-- `"/missing"` as bytes. -/
def pMissing : List Nat := [47, 109, 105, 115, 115, 105, 110, 103]

/-! Helper lemmas shared by several claims. -/

/-- Counting with a `foldl` that conditionally increments equals the base
plus the number of elements satisfying the predicate. -/
lemma foldl_count (p : Nat → Bool) :
    ∀ (l : List Nat) (k : Nat),
      l.foldl (fun n i => if p i then n + 1 else n) k =
        k + (l.filter p).length := by
  intro l
  induction l with
  | nil => intro k; simp
  | cons a t ih =>
      intro k
      by_cases h : p a
      · simp [List.foldl_cons, h, ih, List.filter_cons]
        omega
      · simp [List.foldl_cons, h, ih, List.filter_cons]

/-- The in-range case of `far_read`: the returned count is the clamped
length and the bytes are the image slice at `data_offset + offset`. -/
lemma far_read_mid (g : FarGlobals) (e : EntryRef) (offset : Int)
    (sz : Nat) (h0 : 0 ≤ offset)
    (hlt : offset < (far_datasize g e : Int)) :
    far_read g e offset sz =
      .ok (min sz (far_datasize g e - offset.toNat),
        (g.far_mapping.drop (far_dataoff g e + offset.toNat)).take
          (min sz (far_datasize g e - offset.toNat))) := by
  rw [far_read, if_neg (by omega), if_neg (by omega)]
  have hkey :
      (if far_datasize g e < offset.toNat + sz
        then far_datasize g e - offset.toNat else sz) =
        min sz (far_datasize g e - offset.toNat) := by
    split <;> omega
  simp only [hkey]

/-- The enumeration loop never reaches a cursor beyond its last
iteration: when the cursor is at least `off + n`, no iteration matches
and the state passes through untouched, for every filler. -/
lemma rdLoop_skip {σ : Type} (g : FarGlobals) (e : EntryRef)
    (filler : σ → List Nat → FarStat → Int → σ × Bool) :
    ∀ (n : Nat) (off offset : Int) (s : σ),
      off + n ≤ offset → rdLoop g e filler n off offset s = .ok s := by
  intro n
  induction n with
  | zero => intro off offset s _; rfl
  | succ n ih =>
      intro off offset s h
      have hne : ¬ (off = offset) := by omega
      simp only [rdLoop, if_neg hne]
      exact ih (off + 1) offset s (by push_cast at h ⊢; omega)

/-- The length of `childNames` is the directory's child count. -/
lemma childNames_length (g : FarGlobals) (e : EntryRef) :
    (childNames g e).length = far_datasize g e := by
  simp [childNames]

/-- Taking a prefix as long as an earlier `take` reproduces that take. -/
lemma take_length_take {α : Type} (l : List α) (cap : Nat) :
    l.take ((l.take cap).length) = l.take cap := by
  have h := List.take_length (l.take cap)
  rw [List.take_take] at h
  have hmin : min ((l.take cap).length) cap = (l.take cap).length := by
    rw [List.length_take]
    omega
  rwa [hmin] at h

/-- Running the enumeration loop with the instrumented filler over a
window of `n` children starting at loop counter `off` (with cursor
`offset` at or past `off`): the loop skips children up to the cursor and
then consumes children in stored order until the budget is exhausted or
the window ends; the result is the corresponding `drop`/`take` of the
stored child-name sequence. -/
lemma rdLoop_budget (g : FarGlobals) (e : EntryRef)
    (htype : far_type g e = 1) :
    ∀ (n : Nat) (off offset : Int) (b : Nat) (l : List (List Nat)),
      2 ≤ off → off ≤ offset →
      (off - 2).toNat + n ≤ far_datasize g e →
      rdLoop g e budgetFiller n off offset (b, l) =
        .ok (b - (((((childNames g e).drop (off - 2).toNat).take n).drop
              (offset - off).toNat).take b).length,
          l ++ ((((childNames g e).drop (off - 2).toNat).take n).drop
              (offset - off).toNat).take b) := by
  intro n
  induction n with
  | zero =>
      intro off offset b l _ _ _
      simp [rdLoop]
  | succ n ih =>
      intro off offset b l hoff2 hle hbound
      have hk : (off - 2).toNat < (childNames g e).length := by
        rw [childNames_length]; omega
      have hdecomp :
          ((childNames g e).drop (off - 2).toNat).take (n + 1) =
            (childNames g e)[(off - 2).toNat] ::
              ((childNames g e).drop ((off - 2).toNat + 1)).take n := by
        rw [List.drop_eq_getElem_cons hk, List.take_succ_cons]
      have hk1 : ((off + 1) - 2).toNat = (off - 2).toNat + 1 := by omega
      have hname : (childNames g e)[(off - 2).toNat] =
          far_name g (.loc (far_dataoff g e + 16 * (off - 2).toNat)) := by
        simp [childNames, farChild]
      by_cases hoff : off = offset
      · subst hoff
        have hchild : far_children g e = some (far_dataoff g e) := by
          simp [far_children, htype]
        cases b with
        | zero =>
            simp [rdLoop, hchild, budgetFiller]
        | succ b' =>
            simp only [rdLoop, if_pos rfl, hchild, budgetFiller]
            rw [ih (off + 1) (off + 1) b'
              (l ++ [far_name g
                (.loc (far_dataoff g e + 16 * (off - 2).toNat))])
              (by omega) (by omega) (by omega)]
            rw [hk1]
            simp only [Int.sub_self, Int.toNat_zero, List.drop_zero]
            rw [hdecomp, hname, List.take_succ_cons]
            simp [List.append_assoc]
      · have hlt : off + 1 ≤ offset := by omega
        simp only [rdLoop, if_neg hoff]
        rw [ih (off + 1) offset b l (by omega) hlt (by omega)]
        rw [hk1]
        have hm : (offset - off).toNat = (offset - (off + 1)).toNat + 1 := by
          omega
        rw [hdecomp, hm, List.drop_succ_cons]

/-- The child-loop stage of `far_readdir` with the instrumented filler:
starting at cursor `c ≥ 2` it consumes children from index `c - 2` on,
up to the budget. -/
lemma far_readdir_tail_budget (g : FarGlobals) (d : FarDir)
    (htype : far_type g d.entry = 1) (c : Int) (hc : 2 ≤ c)
    (b : Nat) (l : List (List Nat)) :
    far_readdir_tail g d budgetFiller c (b, l) =
      .ok (b - (((childNames g d.entry).drop (c - 2).toNat).take b).length,
        l ++ ((childNames g d.entry).drop (c - 2).toNat).take b) := by
  rw [far_readdir_tail,
    rdLoop_budget g d.entry htype (far_datasize g d.entry) 2 c b l
      (by omega) hc (by omega)]
  have h2 : ((2 : Int) - 2).toNat = 0 := rfl
  rw [h2, List.drop_zero, ← childNames_length g d.entry, List.take_length]

/-- The `..`-and-onwards stage of `far_readdir` with the instrumented
filler: from cursor `c ≥ 1` it consumes the suffix of the full listing
from position `c`, up to the budget. -/
lemma far_readdir_dots_budget (g : FarGlobals) (d : FarDir)
    (htype : far_type g d.entry = 1) (c : Int) (hc : 1 ≤ c)
    (b : Nat) (l : List (List Nat)) :
    far_readdir_dots g d budgetFiller c (b, l) =
      .ok (b - (((fullListing g d).drop c.toNat).take b).length,
        l ++ ((fullListing g d).drop c.toNat).take b) := by
  by_cases hc1 : c = 1
  · subst hc1
    have hdrop : (fullListing g d).drop (1 : Int).toNat =
        [46, 46] :: childNames g d.entry := by
      simp [fullListing]
    cases b with
    | zero => simp [far_readdir_dots, budgetFiller, hdrop]
    | succ b' =>
        simp only [far_readdir_dots, if_pos rfl, budgetFiller]
        rw [far_readdir_tail_budget g d htype 2 (by omega) b'
          (l ++ [[46, 46]])]
        have h0 : ((2 : Int) - 2).toNat = 0 := rfl
        rw [h0, List.drop_zero, hdrop, List.take_succ_cons]
        simp [List.append_assoc]
  · have hge : 2 ≤ c := by omega
    rw [far_readdir_dots, if_neg hc1,
      far_readdir_tail_budget g d htype c hge b l]
    have hm : c.toNat = ((c - 2).toNat + 1) + 1 := by omega
    rw [fullListing, hm, List.drop_succ_cons, List.drop_succ_cons]

/-- `far_readdir` with the instrumented filler: from cursor `c ≥ 0` it
consumes the suffix of the full listing (`.`, `..`, children in stored
order) from position `c`, up to the budget, and returns the unspent
budget. -/
lemma far_readdir_budget (g : FarGlobals) (d : FarDir)
    (htype : far_type g d.entry = 1) (c : Int) (hc : 0 ≤ c)
    (b : Nat) (l : List (List Nat)) :
    far_readdir g d c budgetFiller (b, l) =
      .ok (b - (((fullListing g d).drop c.toNat).take b).length,
        l ++ ((fullListing g d).drop c.toNat).take b) := by
  by_cases hc0 : c = 0
  · subst hc0
    have hdrop : (fullListing g d).drop (0 : Int).toNat = fullListing g d :=
      rfl
    cases b with
    | zero => simp [far_readdir, budgetFiller, hdrop]
    | succ b' =>
        simp only [far_readdir, if_pos rfl, budgetFiller]
        rw [far_readdir_dots_budget g d htype 1 (by omega) b' (l ++ [[46]])]
        have h1 : (fullListing g d).drop (1 : Int).toNat =
            [46, 46] :: childNames g d.entry := by
          simp [fullListing]
        rw [h1, hdrop, fullListing, List.take_succ_cons]
        simp [List.append_assoc]
  · have hge : 1 ≤ c := by omega
    rw [far_readdir, if_neg hc0,
      far_readdir_dots_budget g d htype c hge b l]

/-- A protocol-following sequence of `far_readdir` calls concatenates to
a contiguous prefix of the suffix of the full listing at the starting
cursor. -/
lemma runCalls_spec (g : FarGlobals) (d : FarDir)
    (htype : far_type g d.entry = 1) :
    ∀ (caps : List Nat) (c : Int) (L : List (List Nat)), 0 ≤ c →
      runCalls g d caps c = some L →
      L = ((fullListing g d).drop c.toNat).take L.length := by
  intro caps
  induction caps with
  | nil =>
      intro c L _ h
      simp only [runCalls, Option.some.injEq] at h
      subst h
      simp
  | cons cap rest ih =>
      intro c L hc h
      rw [runCalls, far_readdir_budget g d htype c hc cap []] at h
      simp only [List.nil_append] at h
      set fl := fullListing g d with hfl
      set E := (fl.drop c.toNat).take cap with hE
      cases hrest : runCalls g d rest (c + E.length) with
      | none => rw [hrest] at h; exact absurd h (by simp)
      | some more =>
          rw [hrest] at h
          simp only [Option.some.injEq] at h
          have hmore := ih (c + E.length) more (by omega) hrest
          have htn : (c + (E.length : Int)).toNat = c.toNat + E.length := by
            omega
          have hdd : fl.drop (c.toNat + E.length) =
              (fl.drop c.toNat).drop E.length := by
            rw [List.drop_drop]
          have hEtake : (fl.drop c.toNat).take E.length = E := by
            rw [hE, take_length_take]
          subst h
          rw [List.length_append, List.take_add, hEtake]
          rw [htn, hdd] at hmore
          rw [← hmore]

/-- Claim C2: on the (well-formed) test archive, the path
`"/hello.txt/x"` makes the resolver descend into the file entry
`hello.txt` (its name matches the intermediate component, no type check
is made), and the subsequent `far_children` call on that non-empty File
entry takes its programming-error branch: `far_traverse_path`, and hence
`far_getattr`, `far_open` and `far_opendir` on that path, abort instead
of returning an error code. -/
theorem c2_file_descent_aborts :
    le32 testG.far_mapping 0 = FAR_MAGIC ∧
    le32 testG.far_mapping 4 = 0 ∧
    far_scan testG .root [104, 101, 108, 108, 111, 46, 116, 120, 116] =
      some (some (.loc 20)) ∧
    far_type testG (.loc 20) = 0 ∧
    0 < far_datasize testG (.loc 20) ∧
    far_traverse_path testG pAbort = .aborted ∧
    far_getattr testG pAbort = .aborted ∧
    far_open testG pAbort 0 = .aborted ∧
    far_opendir testG pAbort true = .aborted := by
  decide

/-- Claim C3: `far_read` fails with `EINVAL` on a negative offset,
returns an empty range at or past end-of-file, and otherwise returns
exactly `min (max_length, size - offset)` bytes taken from the image at
`data_offset + offset`; in particular reading at `size` is empty for any
requested length position, and reading 10 bytes at `size - 1` returns
exactly 1 byte. -/
theorem c3_read_bounds (g : FarGlobals) (e : EntryRef) (offset : Int)
    (sz : Nat) :
    (offset < 0 → far_read g e offset sz = .err EINVAL) ∧
    ((far_datasize g e : Int) ≤ offset →
      far_read g e offset sz = .ok (0, [])) ∧
    (0 ≤ offset → offset < (far_datasize g e : Int) →
      far_read g e offset sz =
        .ok (min sz (far_datasize g e - offset.toNat),
          (g.far_mapping.drop (far_dataoff g e + offset.toNat)).take
            (min sz (far_datasize g e - offset.toNat))) ∧
      (far_dataoff g e + far_datasize g e ≤ g.far_mapping.length →
        ((g.far_mapping.drop (far_dataoff g e + offset.toNat)).take
            (min sz (far_datasize g e - offset.toNat))).length =
          min sz (far_datasize g e - offset.toNat))) ∧
    far_read g e (far_datasize g e) sz = .ok (0, []) ∧
    (1 ≤ far_datasize g e →
      far_read g e ((far_datasize g e : Int) - 1) 10 =
        .ok (1,
          (g.far_mapping.drop
            (far_dataoff g e + (far_datasize g e - 1))).take 1)) := by
  refine ⟨?_, ?_, ?_, ?_, ?_⟩
  · intro h
    rw [far_read, if_pos h]
  · intro h
    rw [far_read, if_neg (by omega), if_pos h]
  · intro h0 hlt
    refine ⟨far_read_mid g e offset sz h0 hlt, ?_⟩
    intro hbound
    rw [List.length_take, List.length_drop]
    omega
  · rw [far_read, if_neg (by omega), if_pos (by omega)]
  · intro h1
    have hmid := far_read_mid g e ((far_datasize g e : Int) - 1) 10
      (by omega) (by omega)
    have ht : ((far_datasize g e : Int) - 1).toNat =
        far_datasize g e - 1 := by omega
    rw [hmid, ht]
    have hm : min 10 (far_datasize g e - (far_datasize g e - 1)) = 1 := by
      omega
    rw [hm]

/-- Claim C3 witness: concrete instance on the test archive's 4-byte
file `hello.txt`. -/
theorem c3_read_bounds_witness :
    far_read testG (.loc 20) (-1) 3 = .err EINVAL ∧
    far_read testG (.loc 20) 4 7 = .ok (0, []) ∧
    far_read testG (.loc 20) 1 2 = .ok (2, [98, 99]) ∧
    far_read testG (.loc 20) 3 10 = .ok (1, [100]) := by
  have h := c3_read_bounds testG (.loc 20) 1 2
  refine ⟨(c3_read_bounds testG (.loc 20) (-1) 3).1 (by decide),
    (c3_read_bounds testG (.loc 20) 4 7).2.1 (by decide), ?_, ?_⟩
  · have h2 := (h.2.2.1 (by decide) (by decide)).1
    rw [h2]
    decide
  · have h3 := (c3_read_bounds testG (.loc 20) 3 10).2.2.2.2 (by decide)
    have : far_datasize testG (.loc 20) = 4 := by decide
    rw [this] at h3
    rw [show ((4 : Nat) : Int) - 1 = (3 : Int) by decide] at h3
    rw [h3]
    decide

/-- Claim C5: `far_fill_stat` gives a directory link count
`2 + (number of its direct children that are directories)` and a file
link count 1; on the test archive the directory `sub`, whose children
are `d1` (directory), `f1` (file), `d2` (directory), gets link count 4. -/
theorem c5_link_count (g : FarGlobals) (e : EntryRef) :
    (far_type g e = 1 →
      (far_fill_stat g e).st_nlink =
        2 + ((List.range (far_datasize g e)).filter
              (fun i => far_type g (farChild g e i) == 1)).length) ∧
    (far_type g e = 0 → (far_fill_stat g e).st_nlink = 1) ∧
    (far_fill_stat testG (.loc 36)).st_nlink = 4 := by
  refine ⟨?_, ?_, by decide⟩
  · intro h
    simp only [far_fill_stat, h, if_pos]
    exact foldl_count _ _ 2
  · intro h
    simp [far_fill_stat, h]

/-- Claim C5 witness: instantiated on the test archive's `sub` directory
and `hello.txt` file. -/
theorem c5_link_count_witness :
    far_type testG (.loc 36) = 1 ∧
    (far_fill_stat testG (.loc 36)).st_nlink =
      2 + ((List.range (far_datasize testG (.loc 36))).filter
            (fun i => far_type testG (farChild testG (.loc 36) i) == 1)).length ∧
    far_type testG (.loc 20) = 0 ∧
    (far_fill_stat testG (.loc 20)).st_nlink = 1 := by
  exact ⟨by decide, (c5_link_count testG (.loc 36)).1 (by decide),
    by decide, (c5_link_count testG (.loc 20)).2.1 (by decide)⟩

/-- Claim C6: the inode number is 1 for the virtual root and `index + 2`
for the entry at index `k` of the global entry table (16-byte records
from `rootdirOffset` on); distinct entries receive distinct inode
numbers, and repeated calls on unchanged globals return identical
results. -/
theorem c6_inode_numbers (g : FarGlobals) (k j : Nat) (path : List Nat) :
    (far_fill_stat g .root).st_ino = 1 ∧
    (far_fill_stat g (.loc (rootdirOffset + 16 * k))).st_ino = k + 2 ∧
    (k ≠ j →
      (far_fill_stat g (.loc (rootdirOffset + 16 * k))).st_ino ≠
        (far_fill_stat g (.loc (rootdirOffset + 16 * j))).st_ino) ∧
    (far_fill_stat g (.loc (rootdirOffset + 16 * k))).st_ino ≠
      (far_fill_stat g .root).st_ino ∧
    (far_getattr_st g path).2 =
      (far_getattr_st ((far_getattr_st g path).1) path).2 := by
  have hino : ∀ i : Nat,
      (far_fill_stat g (.loc (rootdirOffset + 16 * i))).st_ino = i + 2 := by
    intro i
    simp only [far_fill_stat, rootdirOffset]
    omega
  refine ⟨rfl, hino k, ?_, ?_, rfl⟩
  · intro hne
    rw [hino k, hino j]
    omega
  · rw [hino k]
    simp [far_fill_stat]

/-- Claim C7 counterexample: on the test archive, `far_open` of the
existing path `"/hello.txt"` with `O_CREAT` (read-only access mode)
succeeds instead of failing with the read-only-violation `EROFS`, and a
write-mode open of the non-resolving path `"/missing"` fails with
`ENOENT`, not with access-denied. -/
theorem c7_counterexample :
    far_open testG pHello O_CREAT = .ok (.loc 20) ∧
    far_open testG pHello O_CREAT ≠ .err EROFS ∧
    far_open testG pMissing 1 = .err ENOENT ∧
    far_open testG pMissing 1 ≠ .err EACCES := by
  decide

/-- Claim C7 as amended: a write-mode open (access mode write-only or
read-write) fails with `EACCES` whenever the path resolves, and never
succeeds for any path; a create attempt (`O_CREAT`) on a path that does
not resolve fails with `EROFS`; a non-create open of a path that does
not resolve fails with `ENOENT` (so `O_CREAT` on an existing path is
treated as a plain open, and a failing write-mode open of a missing path
surfaces `ENOENT`/`EROFS`, not `EACCES`). -/
theorem c7_read_only_policy (g : FarGlobals) (path : List Nat)
    (flags : Nat) :
    ((flags &&& 3 = 1 ∨ flags &&& 3 = 2) →
      (∀ e p, far_traverse_path g path = .found e p →
        far_open g path flags = .err EACCES) ∧
      (∀ e, far_open g path flags ≠ .ok e)) ∧
    (far_traverse_path g path = .notFound →
      (flags &&& O_CREAT ≠ 0 → far_open g path flags = .err EROFS) ∧
      (flags &&& O_CREAT = 0 → far_open g path flags = .err ENOENT)) := by
  constructor
  · intro hacc
    have hwrite : ∀ e p, far_traverse_path g path = .found e p →
        far_open g path flags = .err EACCES := by
      intro e p h
      rcases hacc with h1 | h2
      · simp [far_open, h, h1]
      · simp [far_open, h, h2]
    refine ⟨hwrite, ?_⟩
    intro e
    cases h : far_traverse_path g path with
    | aborted => simp [far_open, h]
    | notFound =>
        simp only [far_open, h]
        split <;> simp
    | found e' p' =>
        rw [hwrite e' p' h]
        simp
  · intro h
    constructor
    · intro hc
      have hb : (flags &&& O_CREAT != 0) = true := by simpa using hc
      simp [far_open, h, hb]
    · intro hc
      simp [far_open, h, hc]

/-- Claim C7 witness: concrete write-mode and create opens on the test
archive. -/
theorem c7_read_only_policy_witness :
    far_open testG pHello 1 = .err EACCES ∧
    far_open testG pHello 2 = .err EACCES ∧
    far_open testG pMissing O_CREAT = .err EROFS ∧
    far_open testG pMissing 0 = .err ENOENT := by
  refine ⟨((c7_read_only_policy testG pHello 1).1 (Or.inl (by decide))).1
      (.loc 20) .root (by decide),
    ((c7_read_only_policy testG pHello 2).1 (Or.inr (by decide))).1
      (.loc 20) .root (by decide),
    ((c7_read_only_policy testG pMissing O_CREAT).2 (by decide)).1
      (by decide),
    ((c7_read_only_policy testG pMissing 0).2 (by decide)).2
      (by decide)⟩

/-- Claim C8: every operation served to the dispatch layer — attribute
lookup, file open, file read, directory open, directory listing and
directory close — returns the globals (archive image bytes, hence header,
entry records, names and data, plus timestamps and identity) unchanged,
whether it succeeds or fails. -/
theorem c8_operations_preserve_state (g : FarGlobals) (path : List Nat)
    (flags : Nat) (e : EntryRef) (off : Int) (sz : Nat) (allocOk : Bool)
    (d d' : FarDir) (c : Int) (σ : Type)
    (filler : σ → List Nat → FarStat → Int → σ × Bool) (s : σ) :
    (far_getattr_st g path).1 = g ∧
    (far_open_st g path flags).1 = g ∧
    (far_read_st g e off sz).1 = g ∧
    (far_opendir_st g path allocOk).1 = g ∧
    (far_readdir_st g d c filler s).1 = g ∧
    (far_releasedir_st g d').1 = g :=
  ⟨rfl, rfl, rfl, rfl, rfl, rfl⟩

/-- Claim C9: `far_open` performs no entry-type check — a path resolving
to a directory opens successfully read-only, and `far_read` on the
resulting handle treats the directory's child count as a byte length,
returning bytes of the raw child-entry array at the directory's data
offset; `far_open` never reports `ENOTDIR`, while `far_opendir` reports
`ENOTDIR` for every path resolving to a File entry. -/
theorem c9_open_type_confusion (g : FarGlobals) (path : List Nat)
    (flags : Nat) (e : EntryRef) (p : EntryRef) (allocOk : Bool)
    (off : Int) (sz : Nat) :
    (far_traverse_path g path = .found e p → far_type g e = 1 →
      flags &&& 3 = 0 → far_open g path flags = .ok e) ∧
    (far_type g e = 1 → 0 ≤ off → off < (far_datasize g e : Int) →
      far_read g e off sz =
        .ok (min sz (far_datasize g e - off.toNat),
          (g.far_mapping.drop (far_dataoff g e + off.toNat)).take
            (min sz (far_datasize g e - off.toNat)))) ∧
    (far_traverse_path g path = .found e p → far_type g e = 0 →
      far_opendir g path allocOk = .err ENOTDIR) ∧
    far_open g path flags ≠ .err ENOTDIR := by
  refine ⟨?_, ?_, ?_, ?_⟩
  · intro h _ hacc
    simp [far_open, h, hacc]
  · intro _ h0 hlt
    exact far_read_mid g e off sz h0 hlt
  · intro h htype
    simp [far_opendir, h, htype]
  · cases h : far_traverse_path g path with
    | aborted => simp [far_open, h]
    | notFound =>
        simp only [far_open, h]
        split <;> simp [EROFS, ENOENT, ENOTDIR]
    | found e' p' =>
        simp only [far_open, h]
        split
        · simp [EACCES, ENOTDIR]
        · split <;> simp [EACCES, ENOTDIR]

/-- Claim C9 witness: on the test archive, opening the directory `/sub`
as a file succeeds and reading the handle returns the first bytes of its
child-entry array, while `far_opendir` of the file `/hello.txt` reports
`ENOTDIR`. -/
theorem c9_open_type_confusion_witness :
    far_open testG pSub 0 = .ok (.loc 36) ∧
    far_read testG (.loc 36) 0 5 = .ok (3, [1, 0, 0]) ∧
    far_opendir testG pHello true = .err ENOTDIR := by
  have h := c9_open_type_confusion testG pSub 0 (.loc 36) .root true 0 5
  refine ⟨h.1 (by decide) (by decide) (by decide), ?_,
    (c9_open_type_confusion testG pHello 0 (.loc 20) .root true 0 5).2.2.1
      (by decide) (by decide)⟩
  have h2 := h.2.1 (by decide) (by decide) (by decide)
  rw [h2]
  decide

/-- Claim C6 witness: concrete table indices on the test archive. -/
theorem c6_inode_numbers_witness :
    (far_fill_stat testG .root).st_ino = 1 ∧
    (far_fill_stat testG (.loc (rootdirOffset + 16 * 0))).st_ino = 2 ∧
    (far_fill_stat testG (.loc (rootdirOffset + 16 * 1))).st_ino ≠
      (far_fill_stat testG (.loc (rootdirOffset + 16 * 4))).st_ino := by
  have h := c6_inode_numbers testG 1 4 pHello
  exact ⟨h.1, (c6_inode_numbers testG 0 4 pHello).2.1,
    h.2.2.1 (by decide)⟩

/-- Claim C1 counterexample: on the test archive the path
`"/nope/hello.txt"` has the intermediate component `nope`, which matches
no child of the root (the then-current directory), yet resolution does
not fail: it skips the component and returns the entry `hello.txt`. -/
theorem c1_counterexample :
    ((pNope.drop 1).splitOn 47).dropLast = [[110, 111, 112, 101]] ∧
    (∀ i, i < far_datasize testG .root →
      far_name testG (farChild testG .root i) ≠ [110, 111, 112, 101]) ∧
    far_traverse_path testG pNope = .found (.loc 20) .root ∧
    far_getattr testG pNope ≠ .err ENOENT := by
  decide

/-- Claim C1 as amended: an intermediate component that matches no child
leaves the current directory unchanged and resolution continues (it does
not fail there, see the counterexample); resolution fails — with
`NotFound` (`NULL` entry, surfaced as `ENOENT` by `far_getattr`) — iff
the final component matches no child of the directory the walk ends at. -/
theorem c1_final_component_not_found (g : FarGlobals) (path : List Nat)
    (dir par : EntryRef)
    (hne : path ≠ [47])
    (hfold : List.foldlM (interStep g) (EntryRef.root, EntryRef.root)
      ((path.drop 1).splitOn 47).dropLast = some (dir, par))
    (htype : far_type g dir = 1)
    (hnomatch : ∀ i, i < far_datasize g dir →
      far_name g (farChild g dir i) ≠ ((path.drop 1).splitOn 47).getLastD []) :
    far_traverse_path g path = .notFound ∧
    far_getattr g path = .err ENOENT := by
  have hscan : far_scan g dir (((path.drop 1).splitOn 47).getLastD []) =
      some none := by
    rw [far_scan]
    by_cases hn : far_datasize g dir = 0
    · simp [hn]
    · have hch : far_children g dir = some (far_dataoff g dir) := by
        simp [far_children, htype]
      simp only [if_neg hn, hch]
      have hfind : (List.range (far_datasize g dir)).find?
          (fun i => far_name g (.loc (far_dataoff g dir + 16 * i)) ==
            ((path.drop 1).splitOn 47).getLastD []) = none := by
        rw [List.find?_eq_none]
        intro i hi
        simp only [List.mem_range] at hi
        simpa using hnomatch i hi
      rw [hfind]
      rfl
  have htrav : far_traverse_path g path = .notFound := by
    rw [far_traverse_path, if_neg hne]
    simp only [hfold, hscan]
  exact ⟨htrav, by rw [far_getattr, htrav]⟩

/-- Claim C1 witness: `"/missing"` matches no child of the root, so
resolution fails with `NotFound` and `far_getattr` returns `-ENOENT`. -/
theorem c1_final_component_not_found_witness :
    pMissing ≠ [47] ∧
    List.foldlM (interStep testG) (EntryRef.root, EntryRef.root)
      ((pMissing.drop 1).splitOn 47).dropLast = some (.root, .root) ∧
    far_type testG .root = 1 ∧
    (∀ i, i < far_datasize testG .root →
      far_name testG (farChild testG .root i) ≠
        ((pMissing.drop 1).splitOn 47).getLastD []) ∧
    (far_traverse_path testG pMissing = .notFound ∧
      far_getattr testG pMissing = .err ENOENT) := by
  refine ⟨by decide, by decide, by decide, by decide, ?_⟩
  exact c1_final_component_not_found testG pMissing .root .root
    (by decide) (by decide) (by decide) (by decide)

/-- Claim C4: `far_readdir` follows the cursor protocol — a single call
at cursor `c` with a filler that accepts `cap` entries consumes exactly
the window of `cap` entries of the sequence `.`, `..`, children in
stored order, starting at position `c`; consequently, for every open
directory handle, concatenating the emissions of protocol-following
repeated calls that run to completion yields exactly `.`, `..` and each
child name once, in stored order, with no duplicates and no omissions,
regardless of the per-call capacities. -/
theorem c4_enumeration_cursor_protocol (g : FarGlobals) (d : FarDir)
    (htype : far_type g d.entry = 1) :
    (∀ (c : Int) (cap : Nat), 0 ≤ c →
      far_readdir g d c budgetFiller (cap, []) =
        .ok (cap - (((fullListing g d).drop c.toNat).take cap).length,
          ((fullListing g d).drop c.toNat).take cap)) ∧
    (∀ (caps : List Nat) (L : List (List Nat)),
      runCalls g d caps 0 = some L →
      L.length = 2 + far_datasize g d.entry → L = fullListing g d) := by
  constructor
  · intro c cap hc
    have h := far_readdir_budget g d htype c hc cap []
    simpa using h
  · intro caps L h hlen
    have hL := runCalls_spec g d htype caps 0 L (by omega) h
    have hfl : (fullListing g d).length = 2 + far_datasize g d.entry := by
      simp only [fullListing, List.length_cons, childNames_length]
      omega
    rw [hL, hlen, ← hfl]
    exact List.take_length _

/-- Claim C4 witness: listing the test archive's root over two calls of
capacity 3 and 1 produces exactly `.`, `..`, `hello.txt`, `sub`. -/
theorem c4_enumeration_cursor_protocol_witness :
    far_type testG rootHandle.entry = 1 ∧
    runCalls testG rootHandle [3, 1] 0 =
      some [[46], [46, 46],
        [104, 101, 108, 108, 111, 46, 116, 120, 116], [115, 117, 98]] ∧
    [[46], [46, 46],
        [104, 101, 108, 108, 111, 46, 116, 120, 116], [115, 117, 98]] =
      fullListing testG rootHandle := by
  refine ⟨by decide, by decide, ?_⟩
  exact (c4_enumeration_cursor_protocol testG rootHandle (by decide)).2
    [3, 1] _ (by decide) (by decide)

/-- Claim C10: on an open handle whose directory has `n` children,
`far_readdir` with any cursor at least `n + 2` returns success with the
filler state untouched — for every filler, so the filler is never
invoked and enumeration past the end is a no-op, not an error. -/
theorem c10_past_end_noop {σ : Type} (g : FarGlobals) (d : FarDir)
    (c : Int) (filler : σ → List Nat → FarStat → Int → σ × Bool)
    (s : σ) (h : (far_datasize g d.entry : Int) + 2 ≤ c) :
    far_readdir g d c filler s = .ok s := by
  have h0 : ¬ (c = 0) := by omega
  have h1 : ¬ (c = 1) := by omega
  rw [far_readdir, if_neg h0, far_readdir_dots, if_neg h1,
    far_readdir_tail]
  exact rdLoop_skip g d.entry filler _ 2 c s (by omega)

/-- Claim C10 witness: the root of the test archive has 2 children and
a `far_readdir` at cursor 4 leaves the instrumented filler untouched. -/
theorem c10_past_end_noop_witness :
    (far_datasize testG rootHandle.entry : Int) + 2 ≤ 4 ∧
    far_readdir testG rootHandle 4 budgetFiller (5, []) = .ok (5, []) :=
  ⟨by decide,
    c10_past_end_noop testG rootHandle 4 budgetFiller (5, []) (by decide)⟩

end FARFS
